import Mathlib

/-!
Verification development for the WhatsApp appointment-booking bot
(Flask webhook handler `whatsapp_reply`, dispatcher `send_interactive_message`,
and the two background sweep jobs `send_reminder` / `send_follow_up` from
`backend/app.py`, plus the dispatcher variant from `backend/_app.py`).

The Python code is shallowly embedded: the MongoDB collection becomes a
`List Appointment` in natural (insertion) order, `datetime` values become a
`DT` record compared via a microsecond linearization, Twilio sends become
entries in an output list, and the fallibility of store operations is made
explicit through Boolean failure flags (a set flag models the operation
raising an exception at that call site).
-/

namespace WhatsappBot

/-- Python `datetime.datetime` value: year-month-day hour:minute:second.micro. -/
structure DT where
  year : Nat
  month : Nat
  day : Nat
  hour : Nat
  minute : Nat
  second : Nat
  micro : Nat
deriving DecidableEq

/-- Gregorian leap-year rule, as in Python's `calendar`/`datetime`. -/
def isLeap (y : Nat) : Bool :=
  y % 4 == 0 && (y % 100 != 0 || y % 400 == 0)

/-- Length of a month, used by `datetime` to validate the day-of-month. -/
def daysInMonth (y m : Nat) : Nat :=
  if m == 2 then (if isLeap y then 29 else 28)
  else if m == 4 || m == 6 || m == 9 || m == 11 then 30
  else 31

/-- Days in the months strictly before month `m` of year `y`. -/
def daysBeforeMonth (y m : Nat) : Nat :=
  (match m with
   | 1 => 0 | 2 => 31 | 3 => 59 | 4 => 90 | 5 => 120 | 6 => 151
   | 7 => 181 | 8 => 212 | 9 => 243 | 10 => 273 | 11 => 304 | _ => 334) +
  (if 3 ≤ m && isLeap y then 1 else 0)

/-- Days in the years strictly before year `y` (proleptic Gregorian, year 1 first). -/
def daysBeforeYear (y : Nat) : Nat :=
  365 * (y - 1) + (y - 1) / 4 - (y - 1) / 100 + (y - 1) / 400

/-- Microsecond linearization of a `DT`.  For valid `datetime` field values this
agrees with Python's field-lexicographic `datetime` ordering and with
`timedelta` arithmetic, so all comparisons in the code are embedded through it. -/
def dtMicros (d : DT) : Nat :=
  ((((daysBeforeYear d.year + daysBeforeMonth d.year d.month + (d.day - 1)) * 24
      + d.hour) * 60 + d.minute) * 60 + d.second) * 1000000 + d.micro

/-- One microsecond short of `timedelta(hours=1)`. -/
def hourMicros : Nat := 3600 * 1000000

/-- One document of the `appointments` Mongo collection.  `oid` stands for the
Mongo `_id` key; the remaining fields are exactly those inserted by
`whatsapp_reply`. -/
structure Appointment where
  oid : Nat
  customer_name : String
  phone_number : String
  service : String
  appointment_date : DT
  reminder_sent : Bool
  follow_up_sent : Bool
deriving DecidableEq

/-- One quick-reply button, `{"reply": {"id": ..., "title": ...}}` in the code. -/
structure Button where
  id : String
  title : String
deriving DecidableEq

/-- ASCII lower-casing of one character, embedding Python `str.lower`. -/
def pyLowerChar (c : Char) : Char :=
  if 'A' ≤ c && c ≤ 'Z' then Char.ofNat (c.toNat + 32) else c

/-- ASCII upper-casing of one character. -/
def pyUpperChar (c : Char) : Char :=
  if 'a' ≤ c && c ≤ 'z' then Char.ofNat (c.toNat - 32) else c

/-- Python `str.lower` (ASCII fragment). -/
def pyLower (s : String) : String :=
  String.mk (s.data.map pyLowerChar)

/-- ASCII letter test (Python's "cased character" for the inputs in scope). -/
def isAsciiAlpha (c : Char) : Bool :=
  ('a' ≤ c && c ≤ 'z') || ('A' ≤ c && c ≤ 'Z')

/-- Worker for `pyTitle`: the Boolean records whether the previous character
was cased. -/
def pyTitleGo : Bool → List Char → List Char
  | _, [] => []
  | prevCased, c :: t =>
    (if isAsciiAlpha c then
      (if prevCased then pyLowerChar c else pyUpperChar c)
     else c) :: pyTitleGo (isAsciiAlpha c) t

/-- Python `str.title` (ASCII fragment). -/
def pyTitle (s : String) : String :=
  String.mk (pyTitleGo false s.data)

/-- Python `needle in haystack` substring containment, on character lists. -/
def listHasSub (hay needle : List Char) : Bool :=
  match hay with
  | [] => needle.isEmpty
  | _ :: t => needle.isPrefixOf hay || listHasSub t needle

/-- Python `sub in s` substring containment on strings. -/
def containsSub (s sub : String) : Bool :=
  listHasSub s.data sub.data

/-- Digit run to number, e.g. `['2','0','2','4']` to `2024`. -/
def digitsToNat (ds : List Char) : Nat :=
  ds.foldl (fun n c => n * 10 + (c.toNat - '0'.toNat)) 0

/-- Read a 1-or-2-digit `strptime` field.  CPython's `_strptime` compiles the
field to a regex alternation of a two-digit and a one-digit form; because every
field here is followed by a non-digit token, the match succeeds exactly when
the maximal digit run has length 2 and satisfies the two-digit range, or
length 1 and satisfies the one-digit range. -/
def readField (ok2 ok1 : Nat → Bool) (cs : List Char) : Option (Nat × List Char) :=
  let ds := cs.takeWhile Char.isDigit
  let rest := cs.dropWhile Char.isDigit
  if ds.length == 2 then
    (if ok2 (digitsToNat ds) then some (digitsToNat ds, rest) else none)
  else if ds.length == 1 then
    (if ok1 (digitsToNat ds) then some (digitsToNat ds, rest) else none)
  else none

/-- Read the `%Y` field: exactly four digits in CPython's `_strptime`. -/
def readYear (cs : List Char) : Option (Nat × List Char) :=
  let ds := cs.takeWhile Char.isDigit
  let rest := cs.dropWhile Char.isDigit
  if ds.length == 4 then some (digitsToNat ds, rest) else none

/-- Expect one literal character. -/
def expectChar (c : Char) : List Char → Option (List Char)
  | [] => none
  | x :: t => if x == c then some t else none

/-- Whitespace class of Python's regex `\s` (ASCII fragment). -/
def pyIsSpaceChar (c : Char) : Bool :=
  c == ' ' || c == '\t' || c == '\n' || c == '\r' || c == Char.ofNat 11 || c == Char.ofNat 12

/-- Literal whitespace in a `strptime` format matches one or more whitespace
characters (`\s+`). -/
def expectSpaces (cs : List Char) : Option (List Char) :=
  let rest := cs.dropWhile pyIsSpaceChar
  if rest.length == cs.length then none else some rest

/-- Embedding of `datetime.strptime(s, '%Y-%m-%d %H:%M')`: `none` models the
`ValueError`, `some` the parsed datetime (second and microsecond zero).
The whole input must be consumed, and the day is validated against the month
length exactly as the `datetime` constructor does; a four-digit year below
`MINYEAR = 1` is rejected. -/
def pyStrptimeYmdHM (s : String) : Option DT := do
  let (y, r1) ← readYear s.data
  let r2 ← expectChar '-' r1
  let (mo, r3) ← readField (fun v => 1 ≤ v && v ≤ 12) (fun v => 1 ≤ v && v ≤ 9) r2
  let r4 ← expectChar '-' r3
  let (d, r5) ← readField (fun v => 1 ≤ v && v ≤ 31) (fun v => 1 ≤ v && v ≤ 9) r4
  let r6 ← expectSpaces r5
  let (h, r7) ← readField (fun v => v ≤ 23) (fun v => v ≤ 9) r6
  let r8 ← expectChar ':' r7
  let (mi, r9) ← readField (fun v => v ≤ 59) (fun v => v ≤ 9) r8
  if r9.isEmpty && 1 ≤ y && d ≤ daysInMonth y mo then
    some ⟨y, mo, d, h, mi, 0, 0⟩
  else none

/-- Zero-padded two-digit rendering. -/
def pad2 (n : Nat) : String :=
  if n < 10 then "0" ++ toString n else toString n

/-- Zero-padded four-digit rendering. -/
def pad4 (n : Nat) : String :=
  if n < 10 then "000" ++ toString n
  else if n < 100 then "00" ++ toString n
  else if n < 1000 then "0" ++ toString n
  else toString n

/-- Python `str(datetime)` for the values stored by this program (microsecond
component zero): `YYYY-MM-DD HH:MM:SS`. -/
def fmtDT (d : DT) : String :=
  pad4 d.year ++ "-" ++ pad2 d.month ++ "-" ++ pad2 d.day ++ " " ++
  pad2 d.hour ++ ":" ++ pad2 d.minute ++ ":" ++ pad2 d.second

/-! Reply texts, verbatim from `app.py`. -/

/-- Greeting text sent with the two quick-reply buttons. -/
def greeting_msg : String :=
  "Welcome to our appointment booking service! How can we help you today?"

/-- The two greeting buttons (the cancel button is commented out in the source). -/
def greeting_buttons : List Button :=
  [⟨"book_now", "Book Now"⟩, ⟨"book_later", "Book Later"⟩]

/-- Reply of the booking-intent branch. -/
def service_prompt_msg : String :=
  "What service would you like to book? (e.g., Haircut, Consultation, etc.)"

/-- Reply of the deferred-booking branch. -/
def book_later_msg : String :=
  "No problem! When you\x27re ready to book, just type \x27book\x27 and we\x27ll assist you."

/-- Cancellation confirmation, interpolating service and date. -/
def cancel_msg (service : String) (d : DT) : String :=
  "Your appointment for " ++ service ++ " on " ++ fmtDT d ++ " has been cancelled."

/-- Reply when no future appointment exists to cancel. -/
def no_upcoming_msg : String :=
  "You don\x27t have any upcoming appointments to cancel."

/-- Date prompt of the service-selection branch. -/
def date_prompt_msg (service : String) : String :=
  "When would you like to schedule your " ++ service ++
  "? Please provide the date and time in this format: YYYY-MM-DD HH:MM."

/-- Booking confirmation, interpolating the (request-local) service and date. -/
def confirm_msg (service : String) (d : DT) : String :=
  "Your " ++ service ++ " is scheduled for " ++ fmtDT d ++
  ". You will receive a reminder 24 hours before the appointment."

/-- Reply on parse failure or past date. -/
def invalid_date_msg : String :=
  "Invalid date format or date is in the past. Please use YYYY-MM-DD HH:MM for a future date and time."

/-- Fallback reply for unrecognized input. -/
def fallback_msg : String :=
  "I didn\x27t understand that. Type \x27hi\x27 for options or \x27book\x27 to book an appointment."

/-- Generic apology reply produced by the top-level exception handler. -/
def apology_msg : String :=
  "An error occurred while processing your request. Please try again later."

/-- Reminder text of the reminder sweep. -/
def reminder_text (a : Appointment) : String :=
  "Reminder: Your " ++ a.service ++ " appointment is scheduled for " ++
  fmtDT a.appointment_date ++ "."

/-- Thank-you text of the follow-up sweep. -/
def follow_up_text (a : Appointment) : String :=
  "Hope you enjoyed your " ++ a.service ++ "! Let us know if you need anything else."

/-- `app.py` dispatcher `send_interactive_message`: more than 3 buttons are
truncated to 3 (`buttons = buttons[:3]`), then a single provider message
carrying the button list is sent.  The result lists the provider messages as
(recipient, body text, attached buttons). -/
def send_interactive_message (to_ message : String) (buttons : List Button) :
    List (String × String × List Button) :=
  [(to_, message, if buttons.length > 3 then buttons.take 3 else buttons)]

/-- Failure switches for the fallible store operations of one webhook request;
a `true` flag models the corresponding pymongo call raising. -/
structure OpFlags where
  findFails : Bool
  deleteFails : Bool
  insertFails : Bool
deriving DecidableEq

/-- Everything one webhook request produces: the TwiML reply body (empty when
`msg.body` is never called), the collection after the request, the dispatcher
calls made, and the `find_one` queries issued (recipient, `datetime.now()`). -/
structure HandlerResult where
  reply : String
  store : List Appointment
  sends : List (String × String × List Button)
  queries : List (String × DT)
deriving DecidableEq

/-- Mongo `delete_one({"_id": i})`: removes the first document with that id. -/
def delete_by_id (i : Nat) : List Appointment → List Appointment
  | [] => []
  | a :: t => if a.oid == i then t else a :: delete_by_id i t

/-- The `find_one` filter of the cancellation branch:
`{"phone_number": frm, "appointment_date": {"$gte": now}}`. -/
def futureFor (frm : String) (now : DT) (a : Appointment) : Bool :=
  a.phone_number == frm && decide (dtMicros now ≤ dtMicros a.appointment_date)

/-- Body of `whatsapp_reply` inside its top-level `try`, before the
catch-all `except` is applied.  `Except.error` carries the `find_one` queries
already issued when the exception escapes.  `now` stands for the
`datetime.now()` calls of the request, `freshId` for the `_id` Mongo assigns
on insert, and the incoming message is lower-cased first as in the source. -/
def whatsapp_reply_E (body frm : String) (now : DT) (freshId : Nat)
    (flags : OpFlags) (store : List Appointment) :
    Except (List (String × DT)) HandlerResult :=
  let incoming := pyLower body
  if containsSub incoming "hi" || containsSub incoming "hello" then
    Except.ok ⟨"", store, send_interactive_message frm greeting_msg greeting_buttons, []⟩
  else if containsSub incoming "book_now" || containsSub incoming "book" then
    Except.ok ⟨service_prompt_msg, store, [], []⟩
  else if containsSub incoming "book_later" then
    Except.ok ⟨book_later_msg, store, [], []⟩
  else if containsSub incoming "cancel_booking" then
    if flags.findFails then Except.error []
    else
      match store.find? (futureFor frm now) with
      | some a =>
        if flags.deleteFails then Except.error [(frm, now)]
        else Except.ok ⟨cancel_msg a.service a.appointment_date,
                        delete_by_id a.oid store, [], [(frm, now)]⟩
      | none => Except.ok ⟨no_upcoming_msg, store, [], [(frm, now)]⟩
  else if containsSub incoming "haircut" || containsSub incoming "consultation" then
    Except.ok ⟨date_prompt_msg (pyTitle incoming), store, [], []⟩
  else if incoming.length == 16 then
    match pyStrptimeYmdHM incoming with
    | some d =>
      if dtMicros d < dtMicros now then
        Except.ok ⟨invalid_date_msg, store, [], []⟩
      else if flags.insertFails then Except.error []
      else Except.ok ⟨confirm_msg "" d,
                      store ++ [⟨freshId, "Customer", frm, "", d, false, false⟩],
                      [], []⟩
    | none => Except.ok ⟨invalid_date_msg, store, [], []⟩
  else
    Except.ok ⟨fallback_msg, store, [], []⟩

/-- The full webhook handler: the catch-all `except Exception` replaces any
escaping failure with the generic apology reply (the store is untouched
because each embedded store operation either completes or raises). -/
def whatsapp_reply (body frm : String) (now : DT) (freshId : Nat)
    (flags : OpFlags) (store : List Appointment) : HandlerResult :=
  match whatsapp_reply_E body frm now freshId flags store with
  | Except.ok r => r
  | Except.error qs => ⟨apology_msg, store, [], qs⟩

/-- Mongo `update_one({"_id": i}, {"$set": ...})`: rewrites the first document
with that id by `f`. -/
def update_first (f : Appointment → Appointment) (i : Nat) :
    List Appointment → List Appointment
  | [] => []
  | a :: t => if a.oid == i then f a :: t else a :: update_first f i t

/-- Common shape of the two sweep jobs: query the collection with filter `p`,
and for each match attempt a Twilio send (`ok` says whether the send for the
document with that id succeeds); on success record the sent message
(id, recipient, body) and set the flag via `f`, on failure log and continue
with the next match. -/
def sweep_job (p : Appointment → Bool) (f : Appointment → Appointment)
    (text : Appointment → String) (ok : Nat → Bool) (store : List Appointment) :
    List Appointment × List (Nat × String × String) :=
  (store.filter p).foldl
    (fun acc a =>
      if ok a.oid then
        (update_first f a.oid acc.1, acc.2 ++ [(a.oid, a.phone_number, text a)])
      else acc)
    (store, [])

/-- Query filter of `send_reminder`:
`appointment_date` in `[now + 23h, now + 25h]` and `reminder_sent == False`. -/
def reminder_window (now : DT) (a : Appointment) : Bool :=
  decide (dtMicros now + 23 * hourMicros ≤ dtMicros a.appointment_date) &&
  decide (dtMicros a.appointment_date ≤ dtMicros now + 25 * hourMicros) &&
  !a.reminder_sent

/-- Query filter of `send_follow_up`:
`appointment_date` in `[now - 24h, now]` and `follow_up_sent == False`
(the lower bound is stated additively to stay in `Nat`). -/
def follow_up_window (now : DT) (a : Appointment) : Bool :=
  decide (dtMicros now ≤ dtMicros a.appointment_date + 24 * hourMicros) &&
  decide (dtMicros a.appointment_date ≤ dtMicros now) &&
  !a.follow_up_sent

/-- The reminder sweep job of `app.py`. -/
def send_reminder (ok : Nat → Bool) (now : DT) (store : List Appointment) :
    List Appointment × List (Nat × String × String) :=
  sweep_job (reminder_window now) (fun a => {a with reminder_sent := true})
    reminder_text ok store

/-- The follow-up sweep job of `app.py`. -/
def send_follow_up (ok : Nat → Bool) (now : DT) (store : List Appointment) :
    List Appointment × List (Nat × String × String) :=
  sweep_job (follow_up_window now) (fun a => {a with follow_up_sent := true})
    follow_up_text ok store

/-- Worker for `chunksOf`; the fuel argument (instantiated with the list
length, an upper bound on the number of chunks) makes the recursion
structural. -/
def chunksOfGo (n : Nat) : Nat → List α → List (List α)
  | 0, _ => []
  | _, [] => []
  | fuel + 1, x :: xs => (x :: xs.take (n - 1)) :: chunksOfGo n fuel (xs.drop (n - 1))

/-- Chunks of at most `n` elements (Python `[l[i:i+n] for i in range(0, len(l), n)]`). -/
def chunksOf (n : Nat) (l : List α) : List (List α) :=
  chunksOfGo n l.length l

namespace AltApp

/-- `_app.py` `send_single_interactive_message`: truncates one button list to
Twilio's 2-button limit and sends a single message with persistent actions. -/
def send_single_interactive_message (to_ message : String) (buttons : List Button) :
    String × String × List Button :=
  (to_, message, if buttons.length > 2 then buttons.take 2 else buttons)

/-- `_app.py` `send_interactive_message`: splits the buttons into chunks of
`max_buttons_per_message = 5` and sends each chunk through
`send_single_interactive_message`. -/
def send_interactive_message (to_ message : String) (buttons : List Button) :
    List (String × String × List Button) :=
  (chunksOf 5 buttons).map (send_single_interactive_message to_ message)

end AltApp

/-- One operation of the system against the appointment store: a webhook
request, a reminder-sweep tick, or a follow-up-sweep tick. -/
inductive SysOp where
  | webhook (body frm : String) (now : DT) (freshId : Nat) (flags : OpFlags)
  | reminder (ok : Nat → Bool) (now : DT)
  | followup (ok : Nat → Bool) (now : DT)

/-- Effect of one system operation on the appointment store. -/
def runOp : SysOp → List Appointment → List Appointment
  | SysOp.webhook body frm now freshId flags, store =>
    (whatsapp_reply body frm now freshId flags store).store
  | SysOp.reminder ok now, store => (send_reminder ok now store).1
  | SysOp.followup ok now, store => (send_follow_up ok now store).1

/-- A webhook operation uses a Mongo-assigned `_id` that is fresh for the
current collection; sweep ticks assign no ids. -/
def opFresh : SysOp → List Appointment → Bool
  | SysOp.webhook _ _ _ freshId _, store => decide (freshId ∉ store.map (·.oid))
  | _, _ => true

/-! Concrete data used by witnesses and counterexamples. -/

/-- All store operations succeed. -/
def flags0 : OpFlags := ⟨false, false, false⟩

/-- A sample current instant, 2025-01-01 00:00:00. -/
def dtW : DT := ⟨2025, 1, 1, 0, 0, 0, 0⟩

/-- The datetime denoted by the sample future message `2099-01-01 10:00`. -/
def dt2099 : DT := ⟨2099, 1, 1, 10, 0, 0, 0⟩

/-- The datetime denoted by `2030-01-01 10:00`, also used as the current
instant in the boundary counterexample. -/
def dtEq : DT := ⟨2030, 1, 1, 10, 0, 0, 0⟩

/-- A future appointment for recipient `whatsapp:+1`, inserted first,
scheduled later than `apptB`. -/
def apptA : Appointment :=
  ⟨1, "Customer", "whatsapp:+1", "Haircut", ⟨2026, 1, 1, 12, 0, 0, 0⟩, false, false⟩

/-- A future appointment for the same recipient, inserted second, scheduled
nearer in the future than `apptA`. -/
def apptB : Appointment :=
  ⟨2, "Customer", "whatsapp:+1", "Consultation", ⟨2025, 6, 1, 9, 0, 0, 0⟩, false, false⟩

/-- An appointment exactly 24 hours after `dtW`: inside the reminder window. -/
def apptR1 : Appointment :=
  ⟨1, "Customer", "u", "Haircut", ⟨2025, 1, 2, 0, 0, 0, 0⟩, false, false⟩

/-- An appointment four days after `dtW`: outside the reminder window. -/
def apptR2 : Appointment :=
  ⟨2, "Customer", "v", "Massage", ⟨2025, 1, 5, 0, 0, 0, 0⟩, false, false⟩

/-- An appointment twelve hours before `dtW`: inside the follow-up window. -/
def apptF : Appointment :=
  ⟨3, "Customer", "w", "Spa", ⟨2024, 12, 31, 12, 0, 0, 0⟩, false, false⟩

/-- Six distinct buttons, more than any variant's per-message cap. -/
def cexButtons : List Button :=
  [⟨"1", "1"⟩, ⟨"2", "2"⟩, ⟨"3", "3"⟩, ⟨"4", "4"⟩, ⟨"5", "5"⟩, ⟨"6", "6"⟩]

/-- A sample store with distinct ids for sweep witnesses. -/
def storeW : List Appointment := [apptR1, apptR2, apptF]

/-- A dispatch oracle under which the send for id 2 fails and all others
succeed. -/
def okW : Nat → Bool := fun i => !(i == 2)

/-- Store component of the sweep fold, isolated from the message log. -/
def sweepStoreFold (f : Appointment → Appointment) (ok : Nat → Bool)
    (store ms : List Appointment) : List Appointment :=
  ms.foldl (fun st a => if ok a.oid then update_first f a.oid st else st) store

/-- `update_first` preserves the id sequence of the collection when the
update function preserves ids. -/
theorem update_first_map_oid (f : Appointment → Appointment)
    (hf : ∀ a, (f a).oid = a.oid) (i : Nat) (l : List Appointment) :
    (update_first f i l).map (·.oid) = l.map (·.oid) := by
  induction l with
  | nil => rfl
  | cons a t ih =>
    by_cases h : a.oid == i
    · simp [update_first, h, hf]
    · simp [update_first, h, ih]

/-- `update_first` with an id absent from the collection is the identity. -/
theorem update_first_of_not_mem (f : Appointment → Appointment) (i : Nat)
    (l : List Appointment) (h : i ∉ l.map (·.oid)) : update_first f i l = l := by
  induction l with
  | nil => rfl
  | cons a t ih =>
    simp only [List.map_cons, List.mem_cons, not_or] at h
    have hne : a.oid ≠ i := fun he => h.1 he.symm
    simp [update_first, beq_iff_eq, hne, ih h.2]

/-- Folding sweep updates over an empty collection yields the empty collection. -/
theorem sweepStoreFold_nil (f : Appointment → Appointment) (ok : Nat → Bool)
    (ms : List Appointment) : sweepStoreFold f ok [] ms = [] := by
  induction ms with
  | nil => rfl
  | cons a t ih =>
    simp only [sweepStoreFold, List.foldl_cons] at ih ⊢
    cases hok : ok a.oid <;> simp [hok, update_first, ih]

/-- Unfolding one step of the sweep fold. -/
theorem sweepStoreFold_step (f : Appointment → Appointment) (ok : Nat → Bool)
    (b : Appointment) (t st : List Appointment) :
    sweepStoreFold f ok st (b :: t) =
      sweepStoreFold f ok (if ok b.oid then update_first f b.oid st else st) t := rfl

/-- Head-commutation for the sweep fold: processing a batch against `x :: st`
updates `x` exactly when some batch element targets `x`'s id, and otherwise
acts on the tail as it would alone. -/
theorem sweepStoreFold_cons (f : Appointment → Appointment) (ok : Nat → Bool)
    (hf : ∀ a, (f a).oid = a.oid) (ms : List Appointment) :
    ∀ (x : Appointment) (st : List Appointment),
      x.oid ∉ st.map (·.oid) → (ms.map (·.oid)).Nodup →
      sweepStoreFold f ok (x :: st) ms =
        (if ms.any (fun b => ok b.oid && b.oid == x.oid) then f x else x) ::
          sweepStoreFold f ok st ms := by
  induction ms with
  | nil => intro x st _ _; simp [sweepStoreFold]
  | cons b t ih =>
    intro x st hx hnd
    simp only [List.map_cons, List.nodup_cons] at hnd
    obtain ⟨hbt, hndt⟩ := hnd
    rw [sweepStoreFold_step, sweepStoreFold_step f ok b t st]
    by_cases hok : ok b.oid = true
    · rw [if_pos hok, if_pos hok]
      by_cases hbx : x.oid = b.oid
      · have hupd : update_first f b.oid (x :: st) = f x :: st := by
          simp [update_first, hbx]
        rw [hupd, ih (f x) st (by rw [hf]; exact hx) hndt]
        have hany : (t.any (fun c => ok c.oid && c.oid == (f x).oid)) = false := by
          rw [hf]
          refine List.any_eq_false.mpr (fun c hc hcontra => ?_)
          simp only [Bool.and_eq_true, beq_iff_eq] at hcontra
          have hcm : c.oid ∈ t.map (·.oid) := List.mem_map_of_mem (·.oid) hc
          rw [hcontra.2, hbx] at hcm
          exact hbt hcm
        have hany2 : ((b :: t).any (fun c => ok c.oid && c.oid == x.oid)) = true := by
          simp only [List.any_cons, Bool.or_eq_true, Bool.and_eq_true, beq_iff_eq]
          exact Or.inl ⟨hok, hbx.symm⟩
        rw [hany, hany2, update_first_of_not_mem f b.oid st (hbx ▸ hx)]
        simp
      · have hupd : update_first f b.oid (x :: st) = x :: update_first f b.oid st := by
          simp [update_first, hbx]
        rw [hupd, ih x (update_first f b.oid st)
              (by rw [update_first_map_oid f hf]; exact hx) hndt]
        have hbXne : (b.oid == x.oid) = false := by
          simp only [beq_eq_false_iff_ne]
          exact fun h => hbx h.symm
        have hhead : ((b :: t).any (fun c => ok c.oid && c.oid == x.oid)) =
            (t.any (fun c => ok c.oid && c.oid == x.oid)) := by
          simp [List.any_cons, hbXne]
        rw [hhead]
    · rw [if_neg hok, if_neg hok, ih x st hx hndt]
      have hokf : ok b.oid = false := by simpa using hok
      have hhead : ((b :: t).any (fun c => ok c.oid && c.oid == x.oid)) =
          (t.any (fun c => ok c.oid && c.oid == x.oid)) := by
        simp [List.any_cons, hokf]
      rw [hhead]

/-- The sweep fold over a duplicate-free collection is the pointwise map that
updates exactly the records targeted by some successfully dispatched batch
element. -/
theorem sweepStoreFold_eq_map (f : Appointment → Appointment) (ok : Nat → Bool)
    (hf : ∀ a, (f a).oid = a.oid) :
    ∀ (store ms : List Appointment),
      (store.map (·.oid)).Nodup → (ms.map (·.oid)).Nodup →
      sweepStoreFold f ok store ms =
        store.map (fun x => if ms.any (fun b => ok b.oid && b.oid == x.oid) then f x else x) := by
  intro store
  induction store with
  | nil => intro ms _ _; simp [sweepStoreFold_nil]
  | cons x st ih =>
    intro ms hnd hndms
    simp only [List.map_cons, List.nodup_cons] at hnd
    rw [sweepStoreFold_cons f ok hf ms x st hnd.1 hndms, ih ms hnd.2 hndms,
        List.map_cons]

/-- Over a duplicate-free collection, the batch built by filtering with `p`
contains an element targeting `x`'s id exactly when `x` itself passes the
filter (and its dispatch succeeds). -/
theorem filter_any_of_nodup (p : Appointment → Bool) (ok : Nat → Bool)
    (store : List Appointment) (hnd : (store.map (·.oid)).Nodup)
    (x : Appointment) (hx : x ∈ store) :
    ((store.filter p).any (fun b => ok b.oid && b.oid == x.oid)) = (p x && ok x.oid) := by
  have hiff : ((store.filter p).any (fun b => ok b.oid && b.oid == x.oid)) = true ↔
      (p x && ok x.oid) = true := by
    simp only [List.any_eq_true, List.mem_filter, Bool.and_eq_true, beq_iff_eq]
    constructor
    · rintro ⟨b, ⟨hb, hpb⟩, hokb, hoid⟩
      have := List.inj_on_of_nodup_map hnd hb hx hoid
      subst this
      exact ⟨hpb, hokb⟩
    · rintro ⟨hpx, hokx⟩
      exact ⟨x, ⟨hx, hpx⟩, hokx, rfl⟩
  cases h1 : (store.filter p).any (fun b => ok b.oid && b.oid == x.oid) <;>
    cases h2 : (p x && ok x.oid) <;> simp_all

/-- Splitting the sweep fold into its store component and its message log. -/
theorem sweep_fold_pair (f : Appointment → Appointment) (text : Appointment → String)
    (ok : Nat → Bool) :
    ∀ (ms st : List Appointment) (m : List (Nat × String × String)),
      ms.foldl
        (fun acc a =>
          if ok a.oid then
            (update_first f a.oid acc.1, acc.2 ++ [(a.oid, a.phone_number, text a)])
          else acc)
        (st, m) =
      (sweepStoreFold f ok st ms,
       m ++ ms.filterMap
         (fun a => if ok a.oid then some (a.oid, a.phone_number, text a) else none)) := by
  intro ms
  induction ms with
  | nil => intro st m; simp [sweepStoreFold]
  | cons a t ih =>
    intro st m
    rw [List.foldl_cons, sweepStoreFold_step, List.filterMap_cons]
    by_cases hok : ok a.oid = true
    · rw [if_pos hok, if_pos hok, if_pos hok, ih]
      simp
    · rw [if_neg hok, if_neg hok, if_neg hok, ih]

/-- Store component of a sweep job: assuming distinct ids, exactly the
matching records whose dispatch succeeds get their flag updated, all other
records are untouched, and no record is added or removed. -/
theorem sweep_job_fst (p : Appointment → Bool) (f : Appointment → Appointment)
    (text : Appointment → String) (ok : Nat → Bool) (store : List Appointment)
    (hf : ∀ a, (f a).oid = a.oid) (hnd : (store.map (·.oid)).Nodup) :
    (sweep_job p f text ok store).1 =
      store.map (fun a => if p a && ok a.oid then f a else a) := by
  have hndf : ((store.filter p).map (·.oid)).Nodup :=
    ((store.filter_sublist).map (·.oid)).nodup hnd
  rw [sweep_job, sweep_fold_pair f text ok (store.filter p) store []]
  simp only
  rw [sweepStoreFold_eq_map f ok hf store (store.filter p) hnd hndf]
  exact List.map_congr_left
    (fun x hx => by rw [filter_any_of_nodup p ok store hnd x hx])

/-- Message log of a sweep job: one message per record matching the query
whose dispatch succeeds, in store order; a failed dispatch skips only its own
record. -/
theorem sweep_job_snd (p : Appointment → Bool) (f : Appointment → Appointment)
    (text : Appointment → String) (ok : Nat → Bool) (store : List Appointment) :
    (sweep_job p f text ok store).2 =
      (store.filter p).filterMap
        (fun a => if ok a.oid then some (a.oid, a.phone_number, text a) else none) := by
  rw [sweep_job, sweep_fold_pair f text ok (store.filter p) store []]
  simp


/-- C4: assuming distinct ids, each Reminder Sweep tick selects exactly the
appointments with `scheduled_at` in `[now + 23h, now + 25h]` and
`reminder_sent = false`, dispatches one reminder naming the service and time
per match whose send succeeds, sets `reminder_sent := true` exactly for those
records (only after a successful dispatch), leaves every other record
unchanged, and a dispatch failure for one record skips only that record while
the sweep continues; the Follow-up Sweep behaves the same with window
`[now - 24h, now]` and flag `follow_up_sent`. -/
theorem C4_sweep_windows_and_flags (ok : Nat → Bool) (now : DT)
    (store : List Appointment) (hnd : (store.map (·.oid)).Nodup) :
    (send_reminder ok now store).1 =
      store.map (fun a =>
        if reminder_window now a && ok a.oid then {a with reminder_sent := true} else a)
    ∧ (send_reminder ok now store).2 =
      (store.filter (fun a =>
          decide (dtMicros now + 23 * hourMicros ≤ dtMicros a.appointment_date) &&
          decide (dtMicros a.appointment_date ≤ dtMicros now + 25 * hourMicros) &&
          !a.reminder_sent)).filterMap
        (fun a =>
          if ok a.oid then
            some (a.oid, a.phone_number,
              "Reminder: Your " ++ a.service ++ " appointment is scheduled for " ++
                fmtDT a.appointment_date ++ ".")
          else none)
    ∧ (send_follow_up ok now store).1 =
      store.map (fun a =>
        if follow_up_window now a && ok a.oid then {a with follow_up_sent := true} else a)
    ∧ (send_follow_up ok now store).2 =
      (store.filter (fun a =>
          decide (dtMicros now ≤ dtMicros a.appointment_date + 24 * hourMicros) &&
          decide (dtMicros a.appointment_date ≤ dtMicros now) &&
          !a.follow_up_sent)).filterMap
        (fun a =>
          if ok a.oid then
            some (a.oid, a.phone_number,
              "Hope you enjoyed your " ++ a.service ++ "! Let us know if you need anything else.")
          else none) := by
  refine ⟨?_, ?_, ?_, ?_⟩
  · rw [send_reminder]
    exact sweep_job_fst _ _ _ ok store (fun a => rfl) hnd
  · rw [send_reminder, sweep_job_snd]
    rfl
  · rw [send_follow_up]
    exact sweep_job_fst _ _ _ ok store (fun a => rfl) hnd
  · rw [send_follow_up, sweep_job_snd]
    rfl

/-- Witness for C4 at a concrete store: records 1 (in the reminder window),
2 (outside both windows, and its dispatch would fail anyway) and 3 (in the
follow-up window). -/
theorem C4_sweep_windows_and_flags_witness :
    (send_reminder okW dtW storeW).1 =
      storeW.map (fun a =>
        if reminder_window dtW a && okW a.oid then {a with reminder_sent := true} else a)
    ∧ (send_reminder okW dtW storeW).2 =
      (storeW.filter (fun a =>
          decide (dtMicros dtW + 23 * hourMicros ≤ dtMicros a.appointment_date) &&
          decide (dtMicros a.appointment_date ≤ dtMicros dtW + 25 * hourMicros) &&
          !a.reminder_sent)).filterMap
        (fun a =>
          if okW a.oid then
            some (a.oid, a.phone_number,
              "Reminder: Your " ++ a.service ++ " appointment is scheduled for " ++
                fmtDT a.appointment_date ++ ".")
          else none)
    ∧ (send_follow_up okW dtW storeW).1 =
      storeW.map (fun a =>
        if follow_up_window dtW a && okW a.oid then {a with follow_up_sent := true} else a)
    ∧ (send_follow_up okW dtW storeW).2 =
      (storeW.filter (fun a =>
          decide (dtMicros dtW ≤ dtMicros a.appointment_date + 24 * hourMicros) &&
          decide (dtMicros a.appointment_date ≤ dtMicros dtW) &&
          !a.follow_up_sent)).filterMap
        (fun a =>
          if okW a.oid then
            some (a.oid, a.phone_number,
              "Hope you enjoyed your " ++ a.service ++ "! Let us know if you need anything else.")
          else none) :=
  C4_sweep_windows_and_flags okW dtW storeW (by decide)

/-- Per-id count of sweep messages equals the count of source records whose
id matches and whose dispatch succeeds. -/
theorem countP_sends (text : Appointment → String) (ok : Nat → Bool) (i : Nat) :
    ∀ l : List Appointment,
      ((l.filterMap
          (fun a => if ok a.oid then some (a.oid, a.phone_number, text a) else none)).countP
        (fun m => m.1 == i)) =
        l.countP (fun a => ok a.oid && a.oid == i) := by
  intro l
  induction l with
  | nil => rfl
  | cons a t ih =>
    rw [List.filterMap_cons]
    by_cases hok : ok a.oid = true
    · rw [if_pos hok, List.countP_cons, List.countP_cons, ih]
      simp [hok]
    · rw [if_neg hok, List.countP_cons, ih]
      simp [Bool.eq_false_iff.mpr hok]

/-- In a collection with duplicate-free ids, at most one record has a given
id, whatever extra condition is imposed. -/
theorem countP_oid_le_one (q : Appointment → Bool) (i : Nat) :
    ∀ l : List Appointment, (l.map (·.oid)).Nodup →
      l.countP (fun a => q a && a.oid == i) ≤ 1 := by
  intro l
  induction l with
  | nil => intro _; simp [List.countP_nil]
  | cons a t ih =>
    intro hnd
    simp only [List.map_cons, List.nodup_cons] at hnd
    rw [List.countP_cons]
    by_cases hcase : (q a && a.oid == i) = true
    · have hai : a.oid = i := by
        simp only [Bool.and_eq_true, beq_iff_eq] at hcase
        exact hcase.2
      have hzero : t.countP (fun b => q b && b.oid == i) = 0 := by
        refine List.countP_eq_zero.mpr (fun b hb hcontra => ?_)
        simp only [Bool.and_eq_true, beq_iff_eq] at hcontra
        have hbm : b.oid ∈ t.map (·.oid) := List.mem_map_of_mem (·.oid) hb
        rw [hcontra.2, ← hai] at hbm
        exact hnd.1 hbm
      rw [hzero]
      simp [hcase]
    · rw [if_neg hcase]
      exact Nat.le_trans (by simp) (ih hnd.2)

/-- A conditional per-record update with an id-preserving function preserves
the id of each record. -/
theorem ite_update_oid (c : Bool) (f : Appointment → Appointment)
    (hf : ∀ a, (f a).oid = a.oid) (a : Appointment) :
    (if c then f a else a).oid = a.oid := by
  cases c <;> simp [hf]

/-- A pointwise conditional update with an id-preserving function preserves
the id sequence of the collection. -/
theorem map_update_map_oid (p : Appointment → Bool) (f : Appointment → Appointment)
    (hf : ∀ a, (f a).oid = a.oid) (store : List Appointment) :
    (store.map (fun a => if p a then f a else a)).map (·.oid) = store.map (·.oid) := by
  rw [List.map_map]
  exact List.map_congr_left (fun a _ => ite_update_oid (p a) f hf a)

/-- C8: running the Reminder Sweep twice in immediate succession — with the
first run's flag updates committed to the store the second run reads — sends
at most one reminder per appointment id, for any dispatch outcomes and any
two tick instants, assuming distinct ids. -/
theorem C8_reminder_idempotence (ok1 ok2 : Nat → Bool) (now1 now2 : DT)
    (store : List Appointment) (hnd : (store.map (·.oid)).Nodup) (i : Nat) :
    ((send_reminder ok1 now1 store).2 ++
      (send_reminder ok2 now2 (send_reminder ok1 now1 store).1).2).countP
        (fun m => m.1 == i) ≤ 1 := by
  have hs1 : (send_reminder ok1 now1 store).1 =
      store.map (fun a =>
        if reminder_window now1 a && ok1 a.oid then {a with reminder_sent := true} else a) := by
    rw [send_reminder]
    exact sweep_job_fst _ _ _ ok1 store (fun a => rfl) hnd
  have hids : ((send_reminder ok1 now1 store).1).map (·.oid) = store.map (·.oid) := by
    rw [hs1]
    exact map_update_map_oid (fun a => reminder_window now1 a && ok1 a.oid)
      (fun a => {a with reminder_sent := true}) (fun a => rfl) store
  have hnd1 : (((send_reminder ok1 now1 store).1).map (·.oid)).Nodup := by
    rw [hids]; exact hnd
  have hc1 : ((send_reminder ok1 now1 store).2).countP (fun m => m.1 == i) =
      store.countP (fun a => (ok1 a.oid && a.oid == i) && reminder_window now1 a) := by
    rw [send_reminder, sweep_job_snd, countP_sends, List.countP_filter]
  have hc2 : ((send_reminder ok2 now2 (send_reminder ok1 now1 store).1).2).countP
        (fun m => m.1 == i) =
      ((send_reminder ok1 now1 store).1).countP
        (fun b => (ok2 b.oid && b.oid == i) && reminder_window now2 b) := by
    rw [send_reminder, sweep_job_snd, countP_sends, List.countP_filter]
  have hb1 : store.countP (fun a => (ok1 a.oid && a.oid == i) && reminder_window now1 a) ≤ 1 := by
    have hle := countP_oid_le_one (fun a => ok1 a.oid && reminder_window now1 a) i store hnd
    have heq : store.countP (fun a => (ok1 a.oid && a.oid == i) && reminder_window now1 a) =
        store.countP (fun a => (ok1 a.oid && reminder_window now1 a) && a.oid == i) :=
      List.countP_congr (fun x _ => by simp only [Bool.and_eq_true]; tauto)
    rw [heq]; exact hle
  have hb2 : ((send_reminder ok1 now1 store).1).countP
      (fun b => (ok2 b.oid && b.oid == i) && reminder_window now2 b) ≤ 1 := by
    have hle := countP_oid_le_one (fun b => ok2 b.oid && reminder_window now2 b) i
      ((send_reminder ok1 now1 store).1) hnd1
    have heq : ((send_reminder ok1 now1 store).1).countP
        (fun b => (ok2 b.oid && b.oid == i) && reminder_window now2 b) =
        ((send_reminder ok1 now1 store).1).countP
          (fun b => (ok2 b.oid && reminder_window now2 b) && b.oid == i) :=
      List.countP_congr (fun x _ => by simp only [Bool.and_eq_true]; tauto)
    rw [heq]; exact hle
  rw [List.countP_append, hc1, hc2]
  by_cases hz : store.countP (fun a => (ok1 a.oid && a.oid == i) && reminder_window now1 a) = 0
  · rw [hz, Nat.zero_add]
    exact hb2
  · have hpos := Nat.pos_of_ne_zero hz
    obtain ⟨a, ha, hpa⟩ := List.countP_pos_iff.mp hpos
    simp only [Bool.and_eq_true, beq_iff_eq] at hpa
    obtain ⟨⟨hok1, hai⟩, hw1⟩ := hpa
    have hc2z : ((send_reminder ok1 now1 store).1).countP
        (fun b => (ok2 b.oid && b.oid == i) && reminder_window now2 b) = 0 := by
      refine List.countP_eq_zero.mpr (fun b hb hcontra => ?_)
      rw [hs1] at hb
      obtain ⟨a2, ha2, hba⟩ := List.mem_map.mp hb
      simp only [Bool.and_eq_true, beq_iff_eq] at hcontra
      have hboid : b.oid = a2.oid := by
        rw [← hba]
        exact ite_update_oid (reminder_window now1 a2 && ok1 a2.oid)
          (fun a => {a with reminder_sent := true}) (fun a => rfl) a2
      have ha2a : a2 = a :=
        List.inj_on_of_nodup_map hnd ha2 ha (by rw [← hboid, hcontra.1.2, hai])
      subst ha2a
      have hcond : (reminder_window now1 a2 && ok1 a2.oid) = true := by
        simp [hw1, hok1]
      rw [if_pos hcond] at hba
      rw [← hba] at hcontra
      simp [reminder_window] at hcontra
    rw [hc2z, Nat.add_zero]
    exact hb1

/-- Witness for C8 at the concrete sweep store, tracking appointment id 1. -/
theorem C8_reminder_idempotence_witness :
    ((send_reminder okW dtW storeW).2 ++
      (send_reminder okW dtW (send_reminder okW dtW storeW).1).2).countP
        (fun m => m.1 == 1) ≤ 1 :=
  C8_reminder_idempotence okW okW dtW dtW storeW (by decide) 1

/-- `delete_one` produces a sublist of the collection: it never adds or
reorders records. -/
theorem delete_by_id_sublist (i : Nat) :
    ∀ l : List Appointment, List.Sublist (delete_by_id i l) l := by
  intro l
  induction l with
  | nil => simp [delete_by_id]
  | cons a t ih =>
    by_cases h : (a.oid == i) = true
    · simp only [delete_by_id, if_pos h]
      exact List.sublist_cons_self a t
    · simp only [delete_by_id, if_neg h]
      exact List.Sublist.cons₂ a ih

/-- Case analysis on the store produced inside the top-level `try`: the
collection is unchanged, or exactly one record is deleted (cancellation), or
exactly one freshly-identified record with empty service and cleared flags is
appended (booking). -/
theorem wa_E_store_cases (body frm : String) (now : DT) (freshId : Nat)
    (flags : OpFlags) (store : List Appointment) (r : HandlerResult)
    (hr : whatsapp_reply_E body frm now freshId flags store = Except.ok r) :
    r.store = store
    ∨ (∃ i, r.store = delete_by_id i store)
    ∨ (∃ d, r.store = store ++ [⟨freshId, "Customer", frm, "", d, false, false⟩]) := by
  simp only [whatsapp_reply_E] at hr
  repeat' split at hr
  all_goals
    first
      | (injection hr with h
         subst h
         first
           | exact Or.inl rfl
           | exact Or.inr (Or.inl ⟨_, rfl⟩)
           | exact Or.inr (Or.inr ⟨_, rfl⟩))
      | simp at hr

/-- Case analysis on the store effect of one webhook request, apology path
included. -/
theorem wa_store_cases (body frm : String) (now : DT) (freshId : Nat)
    (flags : OpFlags) (store : List Appointment) :
    (whatsapp_reply body frm now freshId flags store).store = store
    ∨ (∃ i, (whatsapp_reply body frm now freshId flags store).store = delete_by_id i store)
    ∨ (∃ d, (whatsapp_reply body frm now freshId flags store).store =
        store ++ [⟨freshId, "Customer", frm, "", d, false, false⟩]) := by
  cases hE : whatsapp_reply_E body frm now freshId flags store with
  | ok r =>
    have hs : (whatsapp_reply body frm now freshId flags store).store = r.store := by
      simp [whatsapp_reply, hE]
    rw [hs]
    exact wa_E_store_cases body frm now freshId flags store r hE
  | error qs =>
    have hs : (whatsapp_reply body frm now freshId flags store).store = store := by
      simp [whatsapp_reply, hE]
    exact Or.inl hs

/-- C5: every operation of the system — webhook handling (booking insert,
cancellation delete) and the two sweep flag updates — never mutates an
existing appointment's `scheduled_at`, and only ever moves `reminder_sent`
and `follow_up_sent` from `false` to `true`, never back, assuming distinct
ids and a fresh Mongo id for the webhook insert. -/
theorem C5_invariants (op : SysOp) (store : List Appointment)
    (hnd : (store.map (·.oid)).Nodup) (hfresh : opFresh op store = true)
    (a b : Appointment) (ha : a ∈ store) (hb : b ∈ runOp op store)
    (hid : b.oid = a.oid) :
    b.appointment_date = a.appointment_date
    ∧ (a.reminder_sent = true → b.reminder_sent = true)
    ∧ (a.follow_up_sent = true → b.follow_up_sent = true) := by
  cases op with
  | webhook body frm now freshId flags =>
    simp only [runOp] at hb
    simp only [opFresh, decide_eq_true_eq] at hfresh
    rcases wa_store_cases body frm now freshId flags store with hcase | ⟨i, hcase⟩ | ⟨d, hcase⟩
    · rw [hcase] at hb
      have hba : b = a := List.inj_on_of_nodup_map hnd hb ha hid
      subst hba
      exact ⟨rfl, fun h => h, fun h => h⟩
    · rw [hcase] at hb
      have hb2 : b ∈ store := (delete_by_id_sublist i store).subset hb
      have hba : b = a := List.inj_on_of_nodup_map hnd hb2 ha hid
      subst hba
      exact ⟨rfl, fun h => h, fun h => h⟩
    · rw [hcase] at hb
      rcases List.mem_append.mp hb with hb2 | hb2
      · have hba : b = a := List.inj_on_of_nodup_map hnd hb2 ha hid
        subst hba
        exact ⟨rfl, fun h => h, fun h => h⟩
      · exfalso
        simp only [List.mem_singleton] at hb2
        apply hfresh
        refine List.mem_map.mpr ⟨a, ha, ?_⟩
        rw [← hid, hb2]
  | reminder ok now =>
    simp only [runOp] at hb
    rw [send_reminder, sweep_job_fst (reminder_window now)
      (fun x => {x with reminder_sent := true}) reminder_text ok store
      (fun x => rfl) hnd] at hb
    obtain ⟨a2, ha2, hba⟩ := List.mem_map.mp hb
    have hbo : b.oid = a2.oid := by
      rw [← hba]
      exact ite_update_oid (reminder_window now a2 && ok a2.oid)
        (fun x => {x with reminder_sent := true}) (fun x => rfl) a2
    have ha2a : a2 = a := List.inj_on_of_nodup_map hnd ha2 ha (by rw [← hbo, hid])
    subst ha2a
    rw [← hba]
    by_cases hc : (reminder_window now a2 && ok a2.oid) = true
    · rw [if_pos hc]
      exact ⟨rfl, fun _ => rfl, fun h => h⟩
    · rw [if_neg hc]
      exact ⟨rfl, fun h => h, fun h => h⟩
  | followup ok now =>
    simp only [runOp] at hb
    rw [send_follow_up, sweep_job_fst (follow_up_window now)
      (fun x => {x with follow_up_sent := true}) follow_up_text ok store
      (fun x => rfl) hnd] at hb
    obtain ⟨a2, ha2, hba⟩ := List.mem_map.mp hb
    have hbo : b.oid = a2.oid := by
      rw [← hba]
      exact ite_update_oid (follow_up_window now a2 && ok a2.oid)
        (fun x => {x with follow_up_sent := true}) (fun x => rfl) a2
    have ha2a : a2 = a := List.inj_on_of_nodup_map hnd ha2 ha (by rw [← hbo, hid])
    subst ha2a
    rw [← hba]
    by_cases hc : (follow_up_window now a2 && ok a2.oid) = true
    · rw [if_pos hc]
      exact ⟨rfl, fun h => h, fun _ => rfl⟩
    · rw [if_neg hc]
      exact ⟨rfl, fun h => h, fun h => h⟩

/-- Witness for C5: a reminder tick on the concrete store, comparing record 1
before and after. -/
theorem C5_invariants_witness :
    ({apptR1 with reminder_sent := true} : Appointment).appointment_date =
      apptR1.appointment_date
    ∧ (apptR1.reminder_sent = true →
        ({apptR1 with reminder_sent := true} : Appointment).reminder_sent = true)
    ∧ (apptR1.follow_up_sent = true →
        ({apptR1 with reminder_sent := true} : Appointment).follow_up_sent = true) :=
  C5_invariants (SysOp.reminder okW dtW) storeW (by decide) (by decide)
    apptR1 {apptR1 with reminder_sent := true} (by decide) (by decide) (by decide)

/-- C9: with all store operations succeeding the handler body never raises,
and whenever the body does raise (any uncaught failure during classification
or handling), the catch-all replaces it by the generic apology reply with the
store unmutated and no dispatcher call — the HTTP caller never observes an
unhandled fault. -/
theorem C9_apology_on_failure :
    (∀ (body frm : String) (now : DT) (freshId : Nat) (store : List Appointment),
      ∃ r, whatsapp_reply_E body frm now freshId ⟨false, false, false⟩ store = Except.ok r)
    ∧ (∀ (body frm : String) (now : DT) (freshId : Nat) (flags : OpFlags)
        (store : List Appointment) (qs : List (String × DT)),
        whatsapp_reply_E body frm now freshId flags store = Except.error qs →
        whatsapp_reply body frm now freshId flags store = ⟨apology_msg, store, [], qs⟩) := by
  constructor
  · intro body frm now freshId store
    simp only [whatsapp_reply_E]
    repeat' split
    all_goals first | exact ⟨_, rfl⟩ | (exfalso; simp_all)
  · intro body frm now freshId flags store qs h
    simp [whatsapp_reply, h]

/-- Witness for C9: a booking insert that raises is replaced by the apology
reply, with the store unmutated. -/
theorem C9_apology_on_failure_witness :
    whatsapp_reply "2099-01-01 10:00" "u" dtW 0 ⟨false, false, true⟩ [] =
      ⟨apology_msg, [], [], []⟩ :=
  C9_apology_on_failure.2 "2099-01-01 10:00" "u" dtW 0 ⟨false, false, true⟩ [] [] (by rfl)

/-- C3: any message containing "hi" or "hello" (after lower-casing, with any
surrounding text) yields exactly the greeting with the two-button choice set
{Book Now, Book Later}, delivered through the dispatcher — the synchronous
webhook reply body stays empty — with no store access (store unchanged, no
query issued). -/
theorem C3_greeting_buttons (body frm : String) (now : DT) (freshId : Nat)
    (flags : OpFlags) (store : List Appointment)
    (h : containsSub (pyLower body) "hi" = true ∨ containsSub (pyLower body) "hello" = true) :
    whatsapp_reply body frm now freshId flags store =
      ⟨"", store,
        [(frm, greeting_msg, [⟨"book_now", "Book Now"⟩, ⟨"book_later", "Book Later"⟩])], []⟩ := by
  have hcond : (containsSub (pyLower body) "hi" || containsSub (pyLower body) "hello") = true := by
    rcases h with h | h <;> simp [h]
  simp [whatsapp_reply, whatsapp_reply_E, hcond, send_interactive_message, greeting_buttons,
    greeting_msg]

/-- Witness for C3 at the concrete input "Hello there". -/
theorem C3_greeting_buttons_witness :
    whatsapp_reply "Hello there" "u" dtW 0 flags0 [apptR1] =
      ⟨"", [apptR1],
        [("u", greeting_msg, [⟨"book_now", "Book Now"⟩, ⟨"book_later", "Book Later"⟩])], []⟩ :=
  C3_greeting_buttons "Hello there" "u" dtW 0 flags0 [apptR1] (Or.inr (by decide))

/-- C1 (amended): for a message that reaches the date/time-entry branch
(16 characters, matching no earlier rule), an Appointment is created if and
only if the text parses as `YYYY-MM-DD HH:MM` and denotes a timestamp at or
after the current instant — the code accepts `scheduled_at = now`, using a
strict `<` comparison for the "past" check; on success the record carries
`reminder_sent = false`, `follow_up_sent = false` and the reply echoes the
chosen date, and on parse failure or a strictly past timestamp the store is
unchanged and the reply is the format/validity error. -/
theorem C1_date_entry_amended (body frm : String) (now : DT) (freshId : Nat)
    (flags : OpFlags) (store : List Appointment)
    (h1 : containsSub (pyLower body) "hi" = false)
    (h2 : containsSub (pyLower body) "hello" = false)
    (h3 : containsSub (pyLower body) "book_now" = false)
    (h4 : containsSub (pyLower body) "book" = false)
    (h5 : containsSub (pyLower body) "book_later" = false)
    (h6 : containsSub (pyLower body) "cancel_booking" = false)
    (h7 : containsSub (pyLower body) "haircut" = false)
    (h8 : containsSub (pyLower body) "consultation" = false)
    (h9 : (pyLower body).length = 16)
    (h10 : flags.insertFails = false) :
    (∀ d, pyStrptimeYmdHM (pyLower body) = some d → dtMicros now ≤ dtMicros d →
      whatsapp_reply body frm now freshId flags store =
        ⟨confirm_msg "" d, store ++ [⟨freshId, "Customer", frm, "", d, false, false⟩], [], []⟩)
    ∧ (pyStrptimeYmdHM (pyLower body) = none →
      whatsapp_reply body frm now freshId flags store = ⟨invalid_date_msg, store, [], []⟩)
    ∧ (∀ d, pyStrptimeYmdHM (pyLower body) = some d → dtMicros d < dtMicros now →
      whatsapp_reply body frm now freshId flags store = ⟨invalid_date_msg, store, [], []⟩) := by
  refine ⟨?_, ?_, ?_⟩
  · intro d hd hord
    simp [whatsapp_reply, whatsapp_reply_E, h1, h2, h3, h4, h5, h6, h7, h8, h9, h10, hd,
      Nat.not_lt.mpr hord]
  · intro hd
    simp [whatsapp_reply, whatsapp_reply_E, h1, h2, h3, h4, h5, h6, h7, h8, h9, hd]
  · intro d hd hord
    simp [whatsapp_reply, whatsapp_reply_E, h1, h2, h3, h4, h5, h6, h7, h8, h9, hd, hord]

/-- Witness for C1 at the concrete future input `2099-01-01 10:00`. -/
theorem C1_date_entry_amended_witness :
    whatsapp_reply "2099-01-01 10:00" "u" dtW 7 flags0 [] =
      ⟨confirm_msg "" dt2099, [] ++ [⟨7, "Customer", "u", "", dt2099, false, false⟩], [], []⟩ :=
  (C1_date_entry_amended "2099-01-01 10:00" "u" dtW 7 flags0 []
    (by decide) (by decide) (by decide) (by decide) (by decide) (by decide)
    (by decide) (by decide) (by decide) (by decide)).1 dt2099 (by decide) (by decide)

/-- Counterexample to C1 as stated: when the parsed timestamp equals the
current instant it is not strictly in the future, yet an Appointment is
created (the code only rejects `appointment_date < now`). -/
theorem C1_strictly_future_counterexample :
    pyStrptimeYmdHM (pyLower "2030-01-01 10:00") = some dtEq
    ∧ (whatsapp_reply "2030-01-01 10:00" "u" dtEq 5 flags0 []).store =
        [⟨5, "Customer", "u", "", dtEq, false, false⟩]
    ∧ ¬ dtMicros dtEq < dtMicros dtEq := by
  refine ⟨by decide, by decide, by decide⟩

/-- C2 (code bug): a message containing "cancel_booking" necessarily contains
"book", so the booking-intent branch matches first and the cancellation logic
is unreachable: with a future appointment present, the code replies with the
service prompt and deletes nothing, instead of cancelling the appointment. -/
theorem C2_cancel_shadowed_by_book :
    whatsapp_reply "cancel_booking" "whatsapp:+1" dtW 9 flags0 [apptA, apptB] =
      ⟨service_prompt_msg, [apptA, apptB], [], []⟩
    ∧ containsSub (pyLower "cancel_booking") "book" = true
    ∧ service_prompt_msg ≠ no_upcoming_msg := by
  refine ⟨by decide, by decide, by decide⟩

/-- C6 (code bug): "book_later" contains "book", so the booking-intent branch
(rule 2) matches before the deferred-booking branch (rule 3); the handler
replies with the service prompt, not the deferred-booking acknowledgment. -/
theorem C6_book_later_shadowed :
    whatsapp_reply "book_later" "u" dtW 9 flags0 [] = ⟨service_prompt_msg, [], [], []⟩
    ∧ containsSub (pyLower "book_later") "book" = true
    ∧ service_prompt_msg ≠ book_later_msg := by
  refine ⟨by decide, by decide, by decide⟩

/-- C7 (code bug): the pending service is request-local, so after the
service-selection request ("haircut") the date-entry request inserts the
record with an empty `service` field, not the title-cased selection. -/
theorem C7_service_lost_between_requests :
    whatsapp_reply "haircut" "u" dtW 9 flags0 [] = ⟨date_prompt_msg "Haircut", [], [], []⟩
    ∧ (whatsapp_reply "2099-01-01 10:00" "u" dtW 9 flags0
        (whatsapp_reply "haircut" "u" dtW 9 flags0 []).store).store =
      [⟨9, "Customer", "u", "", dt2099, false, false⟩]
    ∧ ("" : String) ≠ pyTitle "haircut" := by
  refine ⟨by decide, by decide, by decide⟩

/-- C10 (amended): the `app.py` dispatcher truncates to its hardcoded cap of 3
buttons and sends a single message never exceeding 3 choices; the `_app.py`
dispatcher first chunks into groups of 5 and then truncates every chunk to 2,
so no single message exceeds 2 choices, but the caps are per-variant literals
(3 versus 5/2), not one configured constant. -/
theorem C10_dispatcher_caps_amended (to_ m : String) (btns : List Button)
    (h : btns.length > 3) :
    send_interactive_message to_ m btns = [(to_, m, btns.take 3)]
    ∧ (∀ x ∈ send_interactive_message to_ m btns, x.2.2.length ≤ 3)
    ∧ (∀ x ∈ AltApp.send_interactive_message to_ m btns, x.2.2.length ≤ 2)
    ∧ AltApp.send_interactive_message to_ m btns =
        (chunksOf 5 btns).map (fun c => (to_, m, if c.length > 2 then c.take 2 else c)) := by
  refine ⟨?_, ?_, ?_, ?_⟩
  · simp [send_interactive_message, h]
  · intro x hx
    simp only [send_interactive_message, List.mem_singleton] at hx
    subst hx
    by_cases h3 : btns.length > 3
    · simp only [if_pos h3]
      simp [List.length_take]
    · simp only [if_neg h3]
      simp only [not_lt] at h3
      simpa using h3
  · intro x hx
    simp only [AltApp.send_interactive_message, List.mem_map] at hx
    obtain ⟨c, hc, rfl⟩ := hx
    simp only [AltApp.send_single_interactive_message]
    by_cases h2 : c.length > 2
    · simp only [if_pos h2]
      simp [List.length_take]
    · simp only [if_neg h2]
      simp only [not_lt] at h2
      simpa using h2
  · rfl

/-- Witness for C10 at the six-button list: the `app.py` variant truncates to
its cap of three. -/
theorem C10_dispatcher_caps_amended_witness :
    send_interactive_message "t" "m" cexButtons = [("t", "m", cexButtons.take 3)] :=
  (C10_dispatcher_caps_amended "t" "m" cexButtons (by decide)).1

/-- Counterexample to C10 as stated: with six choices the `_app.py` dispatcher
sends choices 1, 2 and 6 across two messages — neither a truncation of the
sequence to a cap nor a split of the whole sequence into cap-sized messages,
under either candidate cap (2 or 5). -/
theorem C10_truncate_or_chunk_counterexample :
    AltApp.send_interactive_message "t" "m" cexButtons =
      [("t", "m", [⟨"1", "1"⟩, ⟨"2", "2"⟩]), ("t", "m", [⟨"6", "6"⟩])]
    ∧ AltApp.send_interactive_message "t" "m" cexButtons ≠ [("t", "m", cexButtons.take 2)]
    ∧ AltApp.send_interactive_message "t" "m" cexButtons ≠
        (chunksOf 2 cexButtons).map (fun c => ("t", "m", c))
    ∧ AltApp.send_interactive_message "t" "m" cexButtons ≠ [("t", "m", cexButtons.take 5)]
    ∧ AltApp.send_interactive_message "t" "m" cexButtons ≠
        (chunksOf 5 cexButtons).map (fun c => ("t", "m", c)) := by
  refine ⟨by decide, by decide, by decide, by decide, by decide⟩

end WhatsappBot
